import Mathlib

/-!
Shallow embedding of the rotating file sink of the glog logging package
(`file.go`), with theorems checking the specification's claims about
sweeping, archiving, rotation, buffering, naming and close semantics.

Modelling conventions:
* filesystem and clock effects are explicit parameters (oracles):
  modification times are `Int` values (nanoseconds where the source
  compares `time.Time` values, Unix seconds where it calls
  `ModTime().Unix()`), the pseudo-random stream of `rand.Int31` is a
  function `Nat → Int` indexed by the try counter, and `os.Stat`
  results are a boolean oracle per filename;
* byte strings are Lean `String`s and Go's byte length is modelled by
  `String.length` (the log records involved are plain text);
* I/O operations whose relative order the spec talks about are recorded
  in explicit event traces.
-/

namespace Glog

/-- Severity levels (the `Level` constants of the source, as `Nat`). -/
abbrev Level := Nat

def LevelPanic : Level := 0
def LevelFatal : Level := 1
def LevelError : Level := 2
def LevelWarn : Level := 3
def LevelInfo : Level := 4
def LevelVerbose : Level := 5
def LevelDebug : Level := 6
def LevelTrace : Level := 7

/-- The `Message` dispatch unit. Only the fields the file sink touches
are modelled: `Level`, `Message` (the text) and `Timestamp`. -/
structure Message where
  level : Level
  text : String
  timestamp : Int
deriving DecidableEq

/-! ## Sweeper (`file.sweep`)

The walk collects every non-directory entry below `f.path`; an entry
participates when the sink's filename regular expressions recognise it
(`f.fnregex.MatchString(path) || (f.fnregex != defaultFnRegex &&
defaultFnRegex.MatchString(path))`), which is the `matched` oracle
here, and when `entry.Info()` succeeds (assumed here). -/

/-- One directory entry seen by the sweep walk. `modTimeNs` is
`fi.ModTime()` in nanoseconds (used by the age-mode comparison);
`modTimeUnix` is `fi.ModTime().Unix()` in seconds (stored in the
count-mode `logfile` records). -/
structure FsEntry where
  path : String
  modTimeNs : Int
  modTimeUnix : Int
  matched : Bool
deriving DecidableEq

/-- Age-mode removal decision: `tm.Before(fi.ModTime().Add(f.sweepInterval))`,
i.e. remove when `tm < modTime + sweepInterval`. -/
def sweepAgeRemoves (tm sweepInterval : Int) (e : FsEntry) : Bool :=
  tm < e.modTimeNs + sweepInterval

/-- Entries remaining after an age-mode (`SweepByInterval`) sweep over
the walked entries: a matched entry is removed exactly when
`sweepAgeRemoves` holds for it. -/
def sweepAgeRemaining (tm sweepInterval : Int) (entries : List FsEntry) : List FsEntry :=
  entries.filter (fun e => !(e.matched && sweepAgeRemoves tm sweepInterval e))

/-- The `logfile` record collected in count mode: `ModTime().Unix()`
and the path. -/
structure logfile where
  timestamp : Int
  filename : String
deriving DecidableEq

/-- `byTimestamp.Less i j ↔ bts[i].timestamp > bts[j].timestamp`: the
sort puts larger (newer) timestamps first. `sort.Sort` (an unstable
comparison sort) is modelled by `List.insertionSort` over the
non-strict version of this order; the two agree up to the relative
order of equal keys, and the theorems below are insensitive to that
order. -/
def byTimestampLE (a b : logfile) : Prop := b.timestamp ≤ a.timestamp

instance : DecidableRel byTimestampLE :=
  fun a b => inferInstanceAs (Decidable (b.timestamp ≤ a.timestamp))

instance : IsTotal logfile byTimestampLE :=
  ⟨fun a b => le_total b.timestamp a.timestamp⟩

instance : IsTrans logfile byTimestampLE :=
  ⟨fun _ _ _ h h' => le_trans h' h⟩

/-- The files collected by the count-mode branch of the walk: the
matched entries, in walk order, as `logfile` records. -/
def collectFiles (entries : List FsEntry) : List logfile :=
  (entries.filter (fun e => e.matched)).map (fun e => ⟨e.modTimeUnix, e.path⟩)

/-- Files remaining after the count-mode (`SweepByFileCount`) deletion
step: when `len(files) > f.sweepFileCount && f.sweepFileCount > 0`, the
list is sorted newest-first and the entries at indices
`sweepFileCount ≤ i < len` are removed, leaving the first
`sweepFileCount`; otherwise nothing is deleted. -/
def sweepCountRemaining (sweepFileCount : Int) (files : List logfile) : List logfile :=
  if (files.length : Int) > sweepFileCount ∧ sweepFileCount > 0 then
    (files.insertionSort byTimestampLE).take sweepFileCount.toNat
  else files

/-- Files removed by the count-mode deletion step (complement of
`sweepCountRemaining`). -/
def sweepCountRemoved (sweepFileCount : Int) (files : List logfile) : List logfile :=
  if (files.length : Int) > sweepFileCount ∧ sweepFileCount > 0 then
    (files.insertionSort byTimestampLE).drop sweepFileCount.toNat
  else []

/-- An archive whose modification time (950) is newer than the cutoff
`now − interval = 900` of the age sweep below. -/
def newArchive : FsEntry := { path := "app-1.tgz", modTimeNs := 950, modTimeUnix := 0, matched := true }

/-- An archive whose modification time (800) is older than the cutoff
`now − interval = 900` of the age sweep below. -/
def oldArchive : FsEntry := { path := "app-2.tgz", modTimeNs := 800, modTimeUnix := 0, matched := true }

/-- C1: the claim states that in age mode exactly the matched archives
with modification time older than `now − sweepInterval` are removed.
The code's test `tm.Before(fi.ModTime().Add(f.sweepInterval))` is the
reverse: at `now = 1000`, `interval = 100`, the archive modified at 950
(newer than the cutoff 900) is removed while the archive modified at
800 (older than the cutoff) survives — the sweep deletes the fresh
archives and keeps the stale ones, contradicting both the claim and the
source's own comment that old log files are cleaned up. -/
theorem sweepAge_removes_new_keeps_old :
    sweepAgeRemaining 1000 100 [newArchive, oldArchive] = [oldArchive]
    ∧ oldArchive.modTimeNs < 1000 - 100
    ∧ ¬ newArchive.modTimeNs < 1000 - 100 := by
  refine ⟨?_, by decide, by decide⟩
  rfl

/-- C4: count mode with retention count `n`. The remaining files are a
sub-permutation of the originals whose removed complement carries only
timestamps no newer than any survivor; for `0 < n` exactly
`min n (number of files)` remain, and when at most `n` files exist or
`n ≤ 0` nothing is deleted. -/
theorem sweepCount_spec (n : Int) (files : List logfile) :
    (0 < n → (sweepCountRemaining n files).length = min n.toNat files.length)
    ∧ (sweepCountRemaining n files ++ sweepCountRemoved n files).Perm files
    ∧ (∀ a ∈ sweepCountRemaining n files, ∀ b ∈ sweepCountRemoved n files,
        b.timestamp ≤ a.timestamp)
    ∧ (((files.length : Int) ≤ n ∨ n ≤ 0) → sweepCountRemaining n files = files) := by
  unfold sweepCountRemaining sweepCountRemoved
  by_cases h : (files.length : Int) > n ∧ n > 0
  · rw [if_pos h, if_pos h]
    refine ⟨fun _ => ?_, ?_, ?_, fun hle => ?_⟩
    · rw [List.length_take, List.length_insertionSort]
    · rw [List.take_append_drop]
      exact List.perm_insertionSort _ _
    · have hs : List.Sorted byTimestampLE (files.insertionSort byTimestampLE) :=
        List.sorted_insertionSort _ _
      rw [← List.take_append_drop n.toNat (files.insertionSort byTimestampLE)] at hs
      exact fun a ha b hb => (List.pairwise_append.mp hs).2.2 a ha b hb
    · rcases hle with hle | hle <;> omega
  · rw [if_neg h, if_neg h]
    refine ⟨fun hn => ?_, by simp, by simp, fun _ => rfl⟩
    have hlen : files.length ≤ n.toNat := by omega
    exact (Nat.min_eq_right hlen).symm

/-- Demonstration input for the count-mode sweep witness. -/
def demoFiles : List logfile := [⟨5, "e.tgz"⟩, ⟨9, "f.tgz"⟩, ⟨7, "g.tgz"⟩]

/-- Witness for `sweepCount_spec` at retention count 2 over three files. -/
theorem sweepCount_spec_witness :
    (sweepCountRemaining 2 demoFiles).length = min (Int.toNat 2) demoFiles.length :=
  (sweepCount_spec 2 demoFiles).1 (by decide)

/-! ## Archiver (`file.compress`)

`compress` walks the directory with `filepath.WalkDir`; the callback
skips directories and the active file, and for every path ending in
`.log` it creates the archive, opens the source, builds the gzip and
tar writers, writes the tar header, copies the content, and removes the
source — with the writer/file teardown `defer`red, so it runs (in LIFO
order: `tw.Close`, `gzw.Flush`, `gzw.Close`, `lfile.Close`,
`gzfile.Close`) only when the callback returns, after the removal.
A non-nil callback error makes `WalkDir` stop and return it. -/

/-- The I/O operations of one callback invocation, tagged with the
entry's path. The last five are the deferred teardown operations. -/
inductive CEvent
  | statInfo (path : String)
  | createArchive (path : String)
  | openSource (path : String)
  | newGzipWriter (path : String)
  | writeHeader (path : String)
  | copyData (path : String)
  | removeSource (path : String)
  | tarClose (path : String)
  | gzipFlush (path : String)
  | gzipClose (path : String)
  | sourceClose (path : String)
  | archiveClose (path : String)
deriving DecidableEq

/-- One walked entry together with the outcome of each fallible
operation the callback performs on it (`none` = success). `name` is
`d.Name()` (which also equals `d.Info().Name()`, the base name);
`modTime` and `size` are the modification time and size the
`fs.FileInfo` from `d.Info()` reports. -/
structure CFile where
  path : String
  name : String
  isDir : Bool
  modTime : Int
  size : Int
  infoErr : Option String
  createErr : Option String
  openErr : Option String
  gzipErr : Option String
  headerErr : Option String
  copyErr : Option String
deriving DecidableEq

/-- `strings.HasSuffix(path, ".log")`: for the ASCII extension the
byte-suffix test agrees with the character-list suffix test. -/
def hasSuffixLog (path : String) : Bool := List.isSuffixOf ".log".data path.data

/-- `gzfilename = path[:len(path)-4] + ".tgz"`: the archive path is
the source path with the `.log` extension replaced by `.tgz`. -/
def gzfilename (path : String) : String := path.dropRight 4 ++ ".tgz"

/-- The fields of the `tar.Header` the callback writes that carry the
source file's metadata. -/
structure TarHeader where
  name : String
  modTime : Int
  size : Int
deriving DecidableEq

/-- `tar.FileInfoHeader(info, "")` (Go standard library contract): the
returned header's `Name`, `ModTime` and `Size` are taken from the
`fs.FileInfo`. -/
def tarFileInfoHeader (name : String) (modTime size : Int) : TarHeader :=
  { name := name, modTime := modTime, size := size }

/-- The archive one callback invocation produces for entry `f`: once
`tw.WriteHeader(header)` has succeeded, the archive file created at
`gzfilename path` holds the header built by
`tar.FileInfoHeader(info, "")` from the entry's info. `none` when the
entry is skipped or an operation before the header write failed. -/
def compressOneArchive (act : String) (f : CFile) : Option (String × TarHeader) :=
  if f.isDir = true ∨ act = f.name then none
  else if hasSuffixLog f.path = true then
    if f.infoErr.isSome then none
    else if f.createErr.isSome then none
    else if f.openErr.isSome then none
    else if f.gzipErr.isSome then none
    else if f.headerErr.isSome then none
    else some (gzfilename f.path, tarFileInfoHeader f.name f.modTime f.size)
  else none

/-- One invocation of the `WalkDir` callback of `compress` on entry
`f`, with `act` the sink's currently active filename (`f.filename`).
Returns the trace of performed operations and the callback's returned
error. An event is recorded when the operation succeeds; on a failure
the deferred closes of the resources acquired so far still run (LIFO)
before the error is returned. -/
def compressOne (act : String) (f : CFile) : List CEvent × Option String :=
  if f.isDir = true ∨ act = f.name then ([], none)
  else if hasSuffixLog f.path = true then
    if f.infoErr.isSome then ([], f.infoErr)
    else if f.createErr.isSome then ([CEvent.statInfo f.path], f.createErr)
    else if f.openErr.isSome then
      ([CEvent.statInfo f.path, CEvent.createArchive f.path,
        CEvent.archiveClose f.path], f.openErr)
    else if f.gzipErr.isSome then
      ([CEvent.statInfo f.path, CEvent.createArchive f.path, CEvent.openSource f.path,
        CEvent.sourceClose f.path, CEvent.archiveClose f.path], f.gzipErr)
    else if f.headerErr.isSome then
      ([CEvent.statInfo f.path, CEvent.createArchive f.path, CEvent.openSource f.path,
        CEvent.newGzipWriter f.path,
        CEvent.tarClose f.path, CEvent.gzipFlush f.path, CEvent.gzipClose f.path,
        CEvent.sourceClose f.path, CEvent.archiveClose f.path], f.headerErr)
    else if f.copyErr.isSome then
      ([CEvent.statInfo f.path, CEvent.createArchive f.path, CEvent.openSource f.path,
        CEvent.newGzipWriter f.path, CEvent.writeHeader f.path,
        CEvent.tarClose f.path, CEvent.gzipFlush f.path, CEvent.gzipClose f.path,
        CEvent.sourceClose f.path, CEvent.archiveClose f.path], f.copyErr)
    else
      ([CEvent.statInfo f.path, CEvent.createArchive f.path, CEvent.openSource f.path,
        CEvent.newGzipWriter f.path, CEvent.writeHeader f.path, CEvent.copyData f.path,
        CEvent.removeSource f.path,
        CEvent.tarClose f.path, CEvent.gzipFlush f.path, CEvent.gzipClose f.path,
        CEvent.sourceClose f.path, CEvent.archiveClose f.path], none)
  else ([], none)

/-- `filepath.WalkDir` driving the compress callback over the walked
entries in order: a non-nil callback error stops the walk, and
`compress` returns it. -/
def compress (act : String) : List CFile → List CEvent × Option String
  | [] => ([], none)
  | f :: rest =>
    match compressOne act f with
    | (evs, none) =>
      let r := compress act rest
      (evs ++ r.1, r.2)
    | (evs, some e) => (evs, some e)

/-- The ordering property C2 asserts of the archiver: a source file is
removed only after its archive's compressed stream has been flushed,
i.e. in the event trace every `removeSource p` comes strictly after
the `gzipFlush p` of the same entry. -/
def removedAfterFlush (evs : List CEvent) : Prop :=
  ∀ p i j, evs.get? i = some (CEvent.removeSource p) →
    evs.get? j = some (CEvent.gzipFlush p) → j < i

/-- An eligible log file on which every operation succeeds. -/
def plainLogFile : CFile :=
  { path := "logs/c.log", name := "c.log", isDir := false,
    modTime := 1700000000000000000, size := 4096,
    infoErr := none, createErr := none, openErr := none,
    gzipErr := none, headerErr := none, copyErr := none }

/-- C2 counterexample: processing the error-free eligible file
`plainLogFile`, the source removal (index 6 of the trace) happens
before the deferred gzip flush (index 8), so the claim that no source
file is removed while its archive data is still unflushed is false. -/
theorem compress_remove_before_flush_cex :
    ¬ removedAfterFlush (compress "active.log" [plainLogFile]).1 := by
  intro h
  have h68 := h "logs/c.log" 6 8 (by decide) (by decide)
  omega

/-- C2 amended: for every eligible, error-free entry, the callback
produces the archive at the same path with the `.log` extension
replaced by `.tgz`, whose tar header preserves the source's name,
modification time and size; it writes that header and copies the file
content into the compression stream before removing the source, but
the deferred tar close, gzip flush and gzip close run only after the
removal; the callback returns no error. -/
theorem compressOne_remove_ordering (act : String) (f : CFile)
    (hdir : f.isDir = false) (hname : ¬ act = f.name)
    (hlog : hasSuffixLog f.path = true)
    (h1 : f.infoErr = none) (h2 : f.createErr = none) (h3 : f.openErr = none)
    (h4 : f.gzipErr = none) (h5 : f.headerErr = none) (h6 : f.copyErr = none) :
    (compressOne act f).2 = none
    ∧ compressOneArchive act f
        = some (gzfilename f.path, tarFileInfoHeader f.name f.modTime f.size)
    ∧ (∀ p h, compressOneArchive act f = some (p, h) →
        p = f.path.dropRight 4 ++ ".tgz"
        ∧ h.name = f.name ∧ h.modTime = f.modTime ∧ h.size = f.size)
    ∧ ∃ l r, (compressOne act f).1 = l ++ CEvent.removeSource f.path :: r
        ∧ CEvent.writeHeader f.path ∈ l ∧ CEvent.copyData f.path ∈ l
        ∧ CEvent.tarClose f.path ∈ r ∧ CEvent.gzipFlush f.path ∈ r
        ∧ CEvent.gzipClose f.path ∈ r := by
  have hcond : ¬ (f.isDir = true ∨ act = f.name) := by
    simp [hdir, hname]
  have harch : compressOneArchive act f
      = some (gzfilename f.path, tarFileInfoHeader f.name f.modTime f.size) := by
    rw [compressOneArchive, if_neg hcond, if_pos hlog]
    simp [h1, h2, h3, h4, h5]
  refine ⟨?_, harch, fun p h hsome => ?_, ?_⟩
  · rw [compressOne, if_neg hcond, if_pos hlog]
    simp [h1, h2, h3, h4, h5, h6]
  · rw [harch] at hsome
    obtain ⟨rfl, rfl⟩ : gzfilename f.path = p
        ∧ tarFileInfoHeader f.name f.modTime f.size = h := by
      simpa using hsome
    exact ⟨rfl, rfl, rfl, rfl⟩
  · rw [compressOne, if_neg hcond, if_pos hlog]
    simp only [h1, h2, h3, h4, h5, h6, Option.isSome_none, Bool.false_eq_true, if_false]
    refine ⟨[CEvent.statInfo f.path, CEvent.createArchive f.path, CEvent.openSource f.path,
       CEvent.newGzipWriter f.path, CEvent.writeHeader f.path, CEvent.copyData f.path],
      [CEvent.tarClose f.path, CEvent.gzipFlush f.path, CEvent.gzipClose f.path,
       CEvent.sourceClose f.path, CEvent.archiveClose f.path], rfl, ?_, ?_, ?_, ?_, ?_⟩
    all_goals simp

/-- Witness for `compressOne_remove_ordering` at `plainLogFile`: the
archive lands at the `.tgz` path with the source's metadata in its
header. -/
theorem compressOne_remove_ordering_witness :
    compressOneArchive "active.log" plainLogFile
      = some (gzfilename plainLogFile.path,
          tarFileInfoHeader plainLogFile.name plainLogFile.modTime plainLogFile.size) :=
  (compressOne_remove_ordering "active.log" plainLogFile rfl (by decide) (by decide)
    rfl rfl rfl rfl rfl rfl).2.1

/-! ## The file sink's state (`file`) and its methods

The `file` struct fields the claims touch, plus two observation
fields: `trace` records the sink's own I/O operations in order, and
`logged` records every message the internal `write` method processed.
The formatter is a function parameter (`f.formatter.Format`).

`f.file` is modelled by `fileOpen` (`true` iff the handle is non-nil);
closing the old handle during rotation does not reset it to nil in the
source, so only the `os.OpenFile` result reassigns it. `disk` holds
the bytes written to the currently open file (writes are modelled as
succeeding in full; the source discards write errors). -/

def RotateByDuration : String := "RotateByDuration"
def RotateBySize : String := "RotateBySize"

/-- `defaultCacheSize = 2 << 10`. -/
def defaultCacheSize : Nat := 2 <<< 10

/-- Observable operations of the sink's own methods. -/
inductive FEvent
  | closeOldFile
  | compressDir
  | logCompressError
  | resetFilesize
  | computeFilename
  | openNewFile
  | flushBuffer
  | launchSweep
  | graceWait
  | closeNotifyChan
  | closeMessagesChan
  | closeFileHandle
deriving DecidableEq

/-- The mutable state of a `file` sink (the fields the claims are
about, with `trace` and `logged` as observations). -/
structure FileState where
  rotatePolicy : String
  rotateDuration : Int
  rotateFileSize : Int
  filesize : Int
  filename : String
  fileOpen : Bool
  buf : String
  disk : String
  closed : Nat
  queue : List (Option Message)
  trace : List FEvent
  logged : List Message
deriving DecidableEq

/-- `file.write`: format the message, flush the buffer to the file
when the formatted length plus the buffered length reaches
`defaultCacheSize` and a file handle exists, then append the formatted
message and a single `\n` byte to the buffer. A nil message does
nothing. -/
def fwrite (fmt : Message → String) (s : FileState) : Option Message → FileState
  | none => s
  | some m =>
    let msgstr := fmt m
    let s1 :=
      if defaultCacheSize ≤ msgstr.length + s.buf.length ∧ s.fileOpen = true then
        { s with disk := s.disk ++ s.buf,
                 filesize := s.filesize + (s.buf.length : Int),
                 buf := "",
                 trace := s.trace ++ [FEvent.flushBuffer] }
      else s
    { s1 with buf := s1.buf ++ msgstr ++ "\n", logged := s1.logged ++ [m] }

/-- `file.flush`: write the buffer to the file (when a handle exists)
and reset it. -/
def flush (s : FileState) : FileState :=
  if s.fileOpen = true then
    { s with disk := s.disk ++ s.buf,
             filesize := s.filesize + (s.buf.length : Int),
             buf := "",
             trace := s.trace ++ [FEvent.flushBuffer] }
  else s

/-- Flags of the `os.OpenFile` call in `rotate`:
`os.O_WRONLY|os.O_APPEND|os.O_CREATE` with permission `0660`. -/
def rotateOpenFlags : List String := ["O_WRONLY", "O_APPEND", "O_CREATE"]

/-- `file.rotate`. Oracles: `compressErr` is what `f.compress()`
returns, `formatResult` what `f.format()` returns, `defaultName` what
`defaultFnFormatter()` would produce, `openErr` the `os.OpenFile`
outcome, `now` the `time.Now()` timestamp of the error message.
Steps, in source order: close the current handle if non-nil; run the
archiver and log its failure as a `LevelError` message through
`f.write`; zero `f.filesize`; compute `f.filename` from the naming
policy, falling back to the default scheme on an empty result; open
the new file, returning only that error. -/
def rotate (fmt : Message → String) (compressErr : Option String)
    (formatResult defaultName : String) (openErr : Option String) (now : Int)
    (s : FileState) : FileState × Option String :=
  let s1 :=
    if s.fileOpen = true then { s with trace := s.trace ++ [FEvent.closeOldFile] } else s
  let s2 := { s1 with trace := s1.trace ++ [FEvent.compressDir] }
  let s3 :=
    match compressErr with
    | some e =>
      let sw := fwrite fmt s2 (some { level := LevelError, text := e, timestamp := now })
      { sw with trace := sw.trace ++ [FEvent.logCompressError] }
    | none => s2
  let s4 := { s3 with filesize := 0, trace := s3.trace ++ [FEvent.resetFilesize] }
  let fn := formatResult
  let fn := if fn = "" then defaultName else fn
  let s5 := { s4 with filename := fn, trace := s4.trace ++ [FEvent.computeFilename] }
  match openErr with
  | none =>
    ({ s5 with fileOpen := true, disk := "", trace := s5.trace ++ [FEvent.openNewFile] }, none)
  | some e =>
    ({ s5 with fileOpen := false, trace := s5.trace ++ [FEvent.openNewFile] }, some e)

/-- `file.Write` (the caller-facing method): when the closed flag is 1
it returns immediately, otherwise it enqueues the message on the
channel (blocking-send semantics are not modelled; the enqueue is the
observable effect). -/
def fWriteChan (s : FileState) (m : Option Message) : FileState :=
  if s.closed = 1 then s else { s with queue := s.queue ++ [m] }

/-- `file.Close`: a compare-and-swap of the closed flag from 0 to 1
guards the teardown (grace wait, closing both channels, flushing the
buffer, closing the file handle); when the swap fails the method
returns nil having done nothing. -/
def fClose (s : FileState) : FileState × Option String :=
  if s.closed = 0 then
    let s1 := { s with closed := 1,
                       trace := s.trace ++ [FEvent.graceWait, FEvent.closeNotifyChan,
                                            FEvent.closeMessagesChan] }
    let s2 := flush s1
    let s3 :=
      if s2.fileOpen = true then { s2 with trace := s2.trace ++ [FEvent.closeFileHandle] }
      else s2
    (s3, none)
  else (s, none)

/-- `time.Minute` in nanoseconds, the tick period and the unit the
loop adds to `elapse` on every tick. -/
def minuteNs : Int := 60000000000

/-- The events the background loop's `select` can receive. -/
inductive LoopEvent
  | message (m : Option Message)
  | tick
  | closeSignal
deriving DecidableEq

/-- The loop-local state of `file.run`: the sink state, the `elapse`
accumulator, and counters of rotations performed and sweeps launched
(observations of `f.rotate()` / `go f.sweep()` calls). -/
structure RunState where
  fs : FileState
  elapse : Int
  rotations : Nat
  sweeps : Nat
deriving DecidableEq

/-- One iteration of the `select` in `file.run`. A received message is
handed to `f.write`. A tick adds one minute to `elapse` and, when
(size policy and `f.filesize ≥ f.rotateFileSize`) or (duration policy
and `elapse ≥ f.rotateDuration`), rotates (discarding the error),
zeroes `elapse` and launches a sweep. The close signal does nothing to
the state (the goroutine returns). -/
def runStep (fmt : Message → String) (compressErr : Option String)
    (formatResult defaultName : String) (openErr : Option String) (now : Int)
    (s : RunState) : LoopEvent → RunState
  | LoopEvent.message m => { s with fs := fwrite fmt s.fs m }
  | LoopEvent.tick =>
    let elapse := s.elapse + minuteNs
    if (s.fs.rotatePolicy = RotateBySize ∧ s.fs.filesize ≥ s.fs.rotateFileSize)
        ∨ (s.fs.rotatePolicy = RotateByDuration ∧ elapse ≥ s.fs.rotateDuration) then
      let r := rotate fmt compressErr formatResult defaultName openErr now s.fs
      { fs := { r.1 with trace := r.1.trace ++ [FEvent.launchSweep] },
        elapse := 0, rotations := s.rotations + 1, sweeps := s.sweeps + 1 }
    else { s with elapse := elapse }
  | LoopEvent.closeSignal => s

/-- A nil message leaves the state untouched. -/
theorem fwrite_none (fmt : Message → String) (s : FileState) : fwrite fmt s none = s := rfl

/-- `write` records exactly the processed message. -/
theorem fwrite_some_logged (fmt : Message → String) (s : FileState) (m : Message) :
    (fwrite fmt s (some m)).logged = s.logged ++ [m] := by
  simp only [fwrite]
  split <;> rfl

/-- The logical output stream (bytes on disk followed by the pending
buffer) grows by exactly the formatted message and one newline. -/
theorem fwrite_some_content (fmt : Message → String) (s : FileState) (m : Message) :
    (fwrite fmt s (some m)).disk ++ (fwrite fmt s (some m)).buf
      = s.disk ++ s.buf ++ (fmt m ++ "\n") := by
  simp only [fwrite]
  split
  · simp [String.empty_append, String.append_assoc]
  · simp [String.append_assoc]

/-- C10: every non-nil message the loop hands to `write` extends the
output stream by the formatter's output followed by exactly one
newline byte and is recorded once; a nil message contributes
nothing. -/
theorem fwrite_record_spec (fmt : Message → String) (s : FileState) (om : Option Message) :
    (∀ m, om = some m →
        (fwrite fmt s om).disk ++ (fwrite fmt s om).buf = s.disk ++ s.buf ++ (fmt m ++ "\n")
        ∧ (fwrite fmt s om).logged = s.logged ++ [m])
    ∧ (om = none → fwrite fmt s om = s) := by
  constructor
  · rintro m rfl
    exact ⟨fwrite_some_content fmt s m, fwrite_some_logged fmt s m⟩
  · rintro rfl
    rfl

/-- A quiescent sink state used by the concrete witnesses. -/
def demoState : FileState :=
  { rotatePolicy := RotateByDuration, rotateDuration := 24 * 3600 * 1000000000,
    rotateFileSize := 50 * 1048576, filesize := 0, filename := "app.log",
    fileOpen := true, buf := "", disk := "", closed := 0, queue := [],
    trace := [], logged := [] }

/-- A small message used by the concrete witnesses. -/
def demoMsg : Message := { level := LevelInfo, text := "hello", timestamp := 0 }

/-- Witness for `fwrite_record_spec` on a concrete message. -/
theorem fwrite_record_spec_witness :
    (fwrite Message.text demoState (some demoMsg)).disk
        ++ (fwrite Message.text demoState (some demoMsg)).buf
      = demoState.disk ++ demoState.buf ++ (Message.text demoMsg ++ "\n") :=
  ((fwrite_record_spec Message.text demoState (some demoMsg)).1 demoMsg rfl).1

/-- C9: the buffer threshold is 2048 bytes, and a message whose
formatted length plus the buffered length reaches it while a file is
open causes the old buffer contents to be written to the file and the
buffer to restart with just this message; below the threshold (or with
no file) nothing is flushed. -/
theorem fwrite_flush_spec (fmt : Message → String) (s : FileState) (m : Message) :
    defaultCacheSize = 2048
    ∧ (defaultCacheSize ≤ (fmt m).length + s.buf.length → s.fileOpen = true →
        (fwrite fmt s (some m)).disk = s.disk ++ s.buf
        ∧ (fwrite fmt s (some m)).buf = fmt m ++ "\n"
        ∧ (fwrite fmt s (some m)).filesize = s.filesize + (s.buf.length : Int))
    ∧ (¬ (defaultCacheSize ≤ (fmt m).length + s.buf.length ∧ s.fileOpen = true) →
        (fwrite fmt s (some m)).disk = s.disk
        ∧ (fwrite fmt s (some m)).buf = s.buf ++ fmt m ++ "\n"
        ∧ (fwrite fmt s (some m)).filesize = s.filesize) := by
  refine ⟨rfl, fun h1 h2 => ?_, fun h => ?_⟩
  · simp only [fwrite]
    rw [if_pos ⟨h1, h2⟩]
    exact ⟨rfl, by simp [String.empty_append], rfl⟩
  · simp only [fwrite]
    rw [if_neg h]
    exact ⟨rfl, rfl, rfl⟩

/-- A 2048-byte text, long enough to trip the buffer threshold. -/
def bigText : String := String.mk (List.replicate 2048 'a')

/-- A message carrying `bigText`. -/
def bigMsg : Message := { level := LevelInfo, text := bigText, timestamp := 0 }

/-- Witness for `fwrite_flush_spec`: the 2048-byte message flushes the
(empty) buffer and restarts it with the message and its newline. -/
theorem fwrite_flush_spec_witness :
    (fwrite Message.text demoState (some bigMsg)).buf = Message.text bigMsg ++ "\n" :=
  ((fwrite_flush_spec Message.text demoState bigMsg).2.1
    (by
      have hlen : (Message.text bigMsg).length = 2048 := List.length_replicate 2048 'a'
      rw [hlen]
      show 2 <<< 10 ≤ 2048 + ("" : String).length
      decide) rfl).2.1

/-- `Close` on an already-closed sink: the compare-and-swap fails and
the method returns nil without touching the state. -/
theorem fClose_of_closed (s : FileState) (h : ¬ s.closed = 0) : fClose s = (s, none) := by
  unfold fClose
  rw [if_neg h]

/-- C5: the closed flag moves from 0 to 1 at most once. The first
`Close` sets it, performs the teardown in order (grace wait, closing
the notify and message channels, then — with an open handle — the
final flush and the handle close) and returns nil; a `Close` on an
already-closed sink returns nil untouched (in particular the second of
two closes), and a `Write` on a closed sink enqueues nothing. -/
theorem close_once_spec (s : FileState) (m : Option Message) :
    (s.closed = 0 →
        (fClose s).1.closed = 1
        ∧ (fClose s).2 = none
        ∧ (fClose s).1.trace
            = s.trace ++ [FEvent.graceWait, FEvent.closeNotifyChan, FEvent.closeMessagesChan]
              ++ (if s.fileOpen = true then [FEvent.flushBuffer, FEvent.closeFileHandle] else [])
        ∧ fClose ((fClose s).1) = ((fClose s).1, none))
    ∧ (s.closed = 1 → fClose s = (s, none) ∧ fWriteChan s m = s) := by
  constructor
  · intro h0
    have hmain : (fClose s).1.closed = 1 ∧ (fClose s).2 = none
        ∧ (fClose s).1.trace
            = s.trace ++ [FEvent.graceWait, FEvent.closeNotifyChan, FEvent.closeMessagesChan]
              ++ (if s.fileOpen = true then [FEvent.flushBuffer, FEvent.closeFileHandle] else []) := by
      unfold fClose flush
      rw [if_pos h0]
      by_cases hf : s.fileOpen = true
      · simp [hf, List.append_assoc]
      · simp [hf]
    refine ⟨hmain.1, hmain.2.1, hmain.2.2,
      fClose_of_closed _ (by rw [hmain.1]; omega)⟩
  · intro h1
    constructor
    · exact fClose_of_closed s (by omega)
    · unfold fWriteChan
      rw [if_pos h1]

/-- Witness for `close_once_spec`: closing the demo state once sets the
flag; closing it again is a no-op returning nil. -/
theorem close_once_spec_witness :
    fClose ((fClose demoState).1) = ((fClose demoState).1, none) :=
  ((close_once_spec demoState none).1 rfl).2.2.2

/-- `rotate` with a failing archiver records exactly one `LevelError`
message through the sink's own write path and returns only the
`os.OpenFile` outcome. -/
theorem rotate_logs_error (fmt : Message → String) (e : String) (fr dn : String)
    (oe : Option String) (now : Int) (s : FileState) :
    (rotate fmt (some e) fr dn oe now s).1.logged = s.logged ++ [⟨LevelError, e, now⟩]
    ∧ (rotate fmt (some e) fr dn oe now s).2 = oe := by
  constructor
  · cases oe <;> by_cases hf : s.fileOpen = true <;>
      simp [rotate, fwrite_some_logged, hf]
  · cases oe <;> rfl

set_option maxRecDepth 8192 in
/-- C6: rotation's steps and their order. The trace grows by: closing
the old handle (only when one is open), the archiver invocation, the
error-logging events exactly when the archiver failed, then the byte
counter reset, the filename computation and the open of the new file.
An archiver failure is recorded through the sink's own `write` as a
`LevelError` message and never returned; the byte counter ends at 0;
the filename falls back to the default scheme exactly when the naming
policy returned the empty string; the returned error is the
`os.OpenFile` outcome; and the open uses the append and create
flags. -/
theorem rotate_spec (fmt : Message → String) (ce : Option String) (fr dn : String)
    (oe : Option String) (now : Int) (s : FileState) :
    (∃ errEvents,
        (rotate fmt ce fr dn oe now s).1.trace
          = s.trace ++ (if s.fileOpen = true then [FEvent.closeOldFile] else [])
            ++ [FEvent.compressDir] ++ errEvents
            ++ [FEvent.resetFilesize, FEvent.computeFilename, FEvent.openNewFile]
        ∧ (ce = none → errEvents = [])
        ∧ (∀ e, ce = some e → FEvent.logCompressError ∈ errEvents))
    ∧ (∀ e, ce = some e →
        (rotate fmt ce fr dn oe now s).1.logged = s.logged ++ [⟨LevelError, e, now⟩])
    ∧ (rotate fmt ce fr dn oe now s).1.filesize = 0
    ∧ (rotate fmt ce fr dn oe now s).1.filename = (if fr = "" then dn else fr)
    ∧ (rotate fmt ce fr dn oe now s).2 = oe
    ∧ "O_APPEND" ∈ rotateOpenFlags ∧ "O_CREATE" ∈ rotateOpenFlags := by
  refine ⟨?_, ?_, ?_, ?_, ?_, by decide, by decide⟩
  · cases ce with
    | none =>
      refine ⟨[], ?_, fun _ => rfl, by simp⟩
      cases oe <;> by_cases hf : s.fileOpen = true <;>
        simp [rotate, hf, List.append_assoc]
    | some e =>
      by_cases hf : s.fileOpen = true
      · by_cases hc : defaultCacheSize ≤
            (fmt { level := LevelError, text := e, timestamp := now }).length + s.buf.length
        · refine ⟨[FEvent.flushBuffer, FEvent.logCompressError], ?_, by simp, fun _ _ => by simp⟩
          cases oe <;> simp [rotate, fwrite, hf, hc, List.append_assoc]
        · refine ⟨[FEvent.logCompressError], ?_, by simp, fun _ _ => by simp⟩
          cases oe <;> simp [rotate, fwrite, hf, hc, List.append_assoc]
      · refine ⟨[FEvent.logCompressError], ?_, by simp, fun _ _ => by simp⟩
        cases oe <;> simp [rotate, fwrite, hf, List.append_assoc]
  · rintro e rfl
    exact (rotate_logs_error fmt e fr dn oe now s).1
  · cases oe <;> rfl
  · cases oe <;> rfl
  · cases oe <;> rfl

/-- Witness for `rotate_spec`: a failing archiver run is logged as a
`LevelError` message through the sink's own write path. -/
theorem rotate_spec_witness :
    (rotate Message.text (some "boom") "next.log" "fallback.log" none 0 demoState).1.logged
      = demoState.logged ++ [⟨LevelError, "boom", 0⟩] :=
  (rotate_spec Message.text (some "boom") "next.log" "fallback.log" none 0 demoState).2.1
    "boom" rfl

/-- An eligible log file whose archive creation fails. -/
def failingLogFile : CFile :=
  { path := "logs/a.log", name := "a.log", isDir := false,
    modTime := 1700000000000000000, size := 1024,
    infoErr := none, createErr := some "disk full", openErr := none,
    gzipErr := none, headerErr := none, copyErr := none }

/-- An eligible, error-free log file walked after `failingLogFile`. -/
def otherLogFile : CFile :=
  { path := "logs/b.log", name := "b.log", isDir := false,
    modTime := 1700000060000000000, size := 2048,
    infoErr := none, createErr := none, openErr := none,
    gzipErr := none, headerErr := none, copyErr := none }

/-- C3 counterexample: with two eligible files where archiving the
first fails, the walk aborts — no operation at all is performed on the
second file, refuting the claim that the remaining eligible files are
still processed. -/
theorem compress_abort_cex :
    (compress "active.log" [failingLogFile, otherLogFile]).2 = some "disk full"
    ∧ CEvent.createArchive "logs/b.log" ∉ (compress "active.log" [failingLogFile, otherLogFile]).1
    ∧ CEvent.removeSource "logs/b.log" ∉ (compress "active.log" [failingLogFile, otherLogFile]).1 := by
  decide

/-- C3 amended: a failure on one file aborts the directory walk — the
trace is exactly the failing file's and the later entries are never
processed — and `compress` returns that first error, which `rotate`
then reports as a single `LevelError` message through the sink's own
write path instead of propagating it (rotate's returned error is only
the `os.OpenFile` outcome). -/
theorem compress_error_aborts (act : String) (bad : CFile) (rest : List CFile) (e : String)
    (hb : (compressOne act bad).2 = some e)
    (fmt : Message → String) (fr dn : String) (oe : Option String) (now : Int)
    (s : FileState) :
    (compress act (bad :: rest)).2 = some e
    ∧ (compress act (bad :: rest)).1 = (compressOne act bad).1
    ∧ (rotate fmt (some e) fr dn oe now s).1.logged = s.logged ++ [⟨LevelError, e, now⟩]
    ∧ (rotate fmt (some e) fr dn oe now s).2 = oe := by
  have hpair : compressOne act bad = ((compressOne act bad).1, some e) := by
    rw [← hb]
  refine ⟨?_, ?_, ?_, ?_⟩
  · rw [compress, hpair]
  · rw [compress, hpair]
  · exact (rotate_logs_error fmt e fr dn oe now s).1
  · exact (rotate_logs_error fmt e fr dn oe now s).2

/-- Witness for `compress_error_aborts` on the concrete failing pair. -/
theorem compress_error_aborts_witness :
    (compress "active.log" [failingLogFile]).2 = some "disk full" :=
  (compress_error_aborts "active.log" failingLogFile [] "disk full" (by decide)
    Message.text "n.log" "d.log" none 0 demoState).1

/-- C8: rotation happens only on tick events. A message event changes
no rotation state; the close signal stops the loop; on a tick the sink
rotates if and only if (size policy and accumulated size at least the
threshold) or (duration policy and elapsed time including this tick's
minute at least the configured duration) — and then the elapsed
counter resets to zero and one sweep is launched after the rotation
(the trace ends with the launch); otherwise the tick only accumulates
one minute of elapsed time. -/
theorem runStep_spec (fmt : Message → String) (ce : Option String) (fr dn : String)
    (oe : Option String) (now : Int) (s : RunState) (m : Option Message) :
    ((runStep fmt ce fr dn oe now s (LoopEvent.message m)).rotations = s.rotations
      ∧ (runStep fmt ce fr dn oe now s (LoopEvent.message m)).sweeps = s.sweeps
      ∧ (runStep fmt ce fr dn oe now s (LoopEvent.message m)).elapse = s.elapse)
    ∧ runStep fmt ce fr dn oe now s LoopEvent.closeSignal = s
    ∧ (((s.fs.rotatePolicy = RotateBySize ∧ s.fs.filesize ≥ s.fs.rotateFileSize)
          ∨ (s.fs.rotatePolicy = RotateByDuration ∧ s.elapse + minuteNs ≥ s.fs.rotateDuration)) →
        (runStep fmt ce fr dn oe now s LoopEvent.tick).rotations = s.rotations + 1
        ∧ (runStep fmt ce fr dn oe now s LoopEvent.tick).sweeps = s.sweeps + 1
        ∧ (runStep fmt ce fr dn oe now s LoopEvent.tick).elapse = 0
        ∧ (runStep fmt ce fr dn oe now s LoopEvent.tick).fs.trace
            = (rotate fmt ce fr dn oe now s.fs).1.trace ++ [FEvent.launchSweep])
    ∧ (¬ ((s.fs.rotatePolicy = RotateBySize ∧ s.fs.filesize ≥ s.fs.rotateFileSize)
          ∨ (s.fs.rotatePolicy = RotateByDuration ∧ s.elapse + minuteNs ≥ s.fs.rotateDuration)) →
        (runStep fmt ce fr dn oe now s LoopEvent.tick).rotations = s.rotations
        ∧ (runStep fmt ce fr dn oe now s LoopEvent.tick).sweeps = s.sweeps
        ∧ (runStep fmt ce fr dn oe now s LoopEvent.tick).elapse = s.elapse + minuteNs
        ∧ (runStep fmt ce fr dn oe now s LoopEvent.tick).fs = s.fs) := by
  refine ⟨⟨rfl, rfl, rfl⟩, rfl, fun hc => ?_, fun hc => ?_⟩
  · simp only [runStep]
    rw [if_pos hc]
    exact ⟨rfl, rfl, rfl, rfl⟩
  · simp only [runStep]
    rw [if_neg hc]
    exact ⟨rfl, rfl, rfl, rfl⟩

/-- A loop state one minute short of the duration threshold, so the
next tick rotates. -/
def demoRunState : RunState :=
  { fs := demoState, elapse := 86400000000000, rotations := 0, sweeps := 0 }

/-- Witness for `runStep_spec`: a tick at the duration threshold
performs exactly one rotation. -/
theorem runStep_spec_witness :
    (runStep Message.text none "n.log" "d.log" none 0 demoRunState LoopEvent.tick).rotations
      = demoRunState.rotations + 1 :=
  ((runStep_spec Message.text none "n.log" "d.log" none 0 demoRunState none).2.2.1
    (Or.inr ⟨rfl, by decide⟩)).1

/-! ## NamingPolicy (the wildcard closure installed by `Path`)

With a pattern, `Path` splits it at the last `*` into a front part and
a back part (the back part getting a `.log` extension appended when
missing) and installs a closure that tries up to 100 random infixes,
returning the first name for which `os.Stat` fails with `IsNotExist`,
and the empty string when all 100 tries collide. `notExist name`
models that stat outcome for `filepath.Join(f.path, name)`; `rnd` is
the `rand.Int31` stream indexed by the try counter. -/

/-- The candidate of try `t`:
`fmt.Sprintf("%s%d%s", front, rand.Int31(), back)`. -/
def formatCandidate (rnd : Nat → Int) (pre suf : String) (t : Nat) : String :=
  pre ++ toString (rnd t) ++ suf

/-- The retry loop of the wildcard naming closure from try `t`: while
`t < 100`, produce the candidate and return it when it does not exist,
otherwise retry with the next try; return the empty string once the
100 tries are exhausted. -/
def formatFrom (notExist : String → Bool) (rnd : Nat → Int) (pre suf : String) (t : Nat) : String :=
  if h : t < 100 then
    if notExist (formatCandidate rnd pre suf t) then formatCandidate rnd pre suf t
    else formatFrom notExist rnd pre suf (t + 1)
  else ""
termination_by 100 - t

/-- The wildcard naming closure `f.format` installed by `Path`
(starting at try 0). -/
def formatFn (notExist : String → Bool) (rnd : Nat → Int) (pre suf : String) : String :=
  formatFrom notExist rnd pre suf 0

/-- Fuel-indexed analysis of the retry loop: a non-empty result is a
later candidate that does not exist, and if every remaining candidate
exists the loop returns the empty string. -/
theorem formatFrom_spec (ne : String → Bool) (rnd : Nat → Int) (pre suf : String) :
    ∀ (fuel t : Nat), 100 - t ≤ fuel →
      (formatFrom ne rnd pre suf t ≠ "" →
        ∃ u, t ≤ u ∧ u < 100 ∧ formatFrom ne rnd pre suf t = formatCandidate rnd pre suf u
          ∧ ne (formatCandidate rnd pre suf u) = true)
      ∧ ((∀ u, t ≤ u → u < 100 → ne (formatCandidate rnd pre suf u) = false) →
        formatFrom ne rnd pre suf t = "") := by
  intro fuel
  induction fuel with
  | zero =>
    intro t ht
    have h100 : ¬ t < 100 := by omega
    rw [formatFrom, dif_neg h100]
    exact ⟨fun hne => absurd rfl hne, fun _ => rfl⟩
  | succ n ih =>
    intro t ht
    by_cases h100 : t < 100
    · rw [formatFrom, dif_pos h100]
      by_cases he : ne (formatCandidate rnd pre suf t) = true
      · rw [if_pos he]
        refine ⟨fun _ => ⟨t, le_refl t, h100, rfl, he⟩, fun hall => ?_⟩
        exact absurd (hall t (le_refl t) h100) (by simp [he])
      · rw [if_neg he]
        have hrec := ih (t + 1) (by omega)
        refine ⟨fun hne => ?_, fun hall => ?_⟩
        · obtain ⟨u, hu1, hu2, hu3, hu4⟩ := hrec.1 hne
          exact ⟨u, by omega, hu2, hu3, hu4⟩
        · exact hrec.2 (fun u hu1 hu2 => hall u (by omega) hu2)
    · rw [formatFrom, dif_neg h100]
      exact ⟨fun hne => absurd rfl hne, fun _ => rfl⟩

/-- C7: the wildcard naming policy makes at most 100 attempts; a
non-empty result is one of the first 100 candidates and is returned
only when no file with that name exists; and when every candidate of
the 100 tries collides the result is the empty string — the signal to
fall back to the default scheme — so in particular an existing file at
the only producible name is never returned. -/
theorem formatFn_spec (ne : String → Bool) (rnd : Nat → Int) (pre suf : String) :
    (formatFn ne rnd pre suf ≠ "" →
      ∃ u, u < 100 ∧ formatFn ne rnd pre suf = formatCandidate rnd pre suf u
        ∧ ne (formatCandidate rnd pre suf u) = true)
    ∧ ((∀ u, u < 100 → ne (formatCandidate rnd pre suf u) = false) →
      formatFn ne rnd pre suf = "") := by
  have h := formatFrom_spec ne rnd pre suf 100 0 (by omega)
  refine ⟨fun hne => ?_, fun hall => h.2 (fun u _ hu2 => hall u hu2)⟩
  obtain ⟨u, _, hu2, hu3, hu4⟩ := h.1 hne
  exact ⟨u, hu2, hu3, hu4⟩

/-- Witness for `formatFn_spec`: when a file exists at every producible
name, the policy signals exhaustion with the empty string. -/
theorem formatFn_spec_witness :
    formatFn (fun _ => false) (fun _ => 7) "app-" ".log" = "" :=
  (formatFn_spec (fun _ => false) (fun _ => 7) "app-" ".log").2 (fun _ _ => rfl)

end Glog
